import Mathlib

set_option maxRecDepth 10000
set_option maxHeartbeats 1000000

/-!
Verification of the Studionyx grounding / ingestion pipeline.

The definitions below are a shallow embedding of the JavaScript services
`src/backend/src/services/geminiService.js` (grounding policy, `requireMaterial`,
summary JSON extraction, suggested-question generation) and the ingestion
pipeline `ingestStudyMaterials` (src/unnamed/part_004, i.e. `ingestion.js`).
Strings are modelled as Lean `String` / `List Char`; JavaScript `undefined`/`null`
is modelled with `Option`; the concrete JS regular expressions used by citation
detection are implemented as executable character-list scanners with the same
matching semantics (for the ASCII inputs the service handles); effectful
extractors (network + Gemini file upload inside `processDriveFile`) are
modelled as an explicit oracle parameter.
-/

namespace Studionyx

/-! ## Character utilities (JS string semantics) -/

/-- ASCII whitespace as matched by the JS regex class `\s` and trimmed by
`String.prototype.trim` (we model the ASCII subset: space, tab, LF, CR, VT, FF). -/
def isWSCh (c : Char) : Bool :=
  c = ' ' || c = '\t' || c = '\n' || c = '\r' || c = '\x0b' || c = '\x0c'

/-- JS regex `\d`. -/
def isDigitCh (c : Char) : Bool := '0' ≤ c && c ≤ '9'

/-- JS regex word character `\w` = `[A-Za-z0-9_]`, used for `\b` boundaries. -/
def isWordCh (c : Char) : Bool :=
  ('a' ≤ c && c ≤ 'z') || ('A' ≤ c && c ≤ 'Z') || ('0' ≤ c && c ≤ '9') || c = '_'

/-- ASCII lower-casing on code points, used for case-insensitive (`/i`) matching. -/
def lcN (n : Nat) : Nat := if 65 ≤ n ∧ n ≤ 90 then n + 32 else n

/-- Case-insensitive character equality (the `/i` flag). -/
def eqCI (a b : Char) : Bool := decide (lcN a.toNat = lcN b.toNat)

/-- Try to match `pat` as a case-insensitive literal prefix of `l`;
returns the rest of `l` on success. -/
def matchCI : List Char → List Char → Option (List Char)
  | [], l => some l
  | _ :: _, [] => none
  | p :: ps, c :: cs => if eqCI p c then matchCI ps cs else none

/-- Case-sensitive literal prefix match (regexes without the `/i` flag). -/
def matchCS : List Char → List Char → Option (List Char)
  | [], l => some l
  | _ :: _, [] => none
  | p :: ps, c :: cs => if p = c then matchCS ps cs else none

/-- Does predicate `p` hold of some suffix of the list?  This is the
regex engine's scan over all starting positions (including the empty suffix). -/
def anySuffix (p : List Char → Bool) : List Char → Bool
  | [] => p []
  | c :: t => p (c :: t) || anySuffix p t

/-- Case-insensitive substring containment (a fully escaped dynamic regex with
`/i` tests exactly this). -/
def containsCI (txt pat : List Char) : Bool :=
  anySuffix (fun s => (matchCI pat s).isSome) txt

/-- `String.prototype.trim` on a character list (ASCII whitespace). -/
def trimChars (cs : List Char) : List Char :=
  ((cs.dropWhile isWSCh).reverse.dropWhile isWSCh).reverse

/-- `String.prototype.trim`. -/
def jsTrim (s : String) : String := String.mk (trimChars s.data)

/-- Decimal digits of a natural number, fuel-based so it reduces in the kernel. -/
def natDigitsAux : Nat → Nat → List Char
  | 0, _ => []
  | fuel + 1, n =>
    if n < 10 then [Char.ofNat (48 + n)]
    else natDigitsAux fuel (n / 10) ++ [Char.ofNat (48 + n % 10)]

/-- Decimal rendering of a `Nat` (as JS string interpolation of a number). -/
def natStr (n : Nat) : String := String.mk (natDigitsAux (n + 1) n)

/-- JS truthiness of an optional string (`undefined`, `null` and `''` are falsy). -/
def truthyOpt : Option String → Bool
  | some s => s ≠ ""
  | none => false

/-- JS template interpolation of a possibly-undefined string value. -/
def jsStr : Option String → String
  | some s => s
  | none => "undefined"

/-! ## Citation-detection regexes (`textCitesMaterial`, geminiService.js lines 7-25) -/

/-- Matcher for `/youtube\s+video/i` at the head of the list. -/
def atYtVideo (cs : List Char) : Bool :=
  match matchCI "youtube".data cs with
  | none => false
  | some r =>
    match r with
    | [] => false
    | c :: t => isWSCh c && (matchCI "video".data ((c :: t).dropWhile isWSCh)).isSome

/-- Scanner for a case-insensitive word with `\b` on both sides
(used for `/\byoutube\b/i`).  The boolean argument records whether the
previous character was a word character. -/
def scanBWord (lit : List Char) : Bool → List Char → Bool
  | _, [] => false
  | prevW, c :: t =>
    (!prevW &&
      (match matchCI lit (c :: t) with
       | some [] => true
       | some (d :: _) => !isWordCh d
       | none => false))
    || scanBWord lit (isWordCh c) t

/-- The remainders of `cs` after matching `\d{1,2}:\d{2}` (greedy first). -/
def mmssRem (cs : List Char) : List (List Char) :=
  (match cs with
   | a :: b :: ':' :: c :: d :: r =>
     if isDigitCh a && isDigitCh b && isDigitCh c && isDigitCh d then [r] else []
   | _ => []) ++
  (match cs with
   | a :: ':' :: c :: d :: r =>
     if isDigitCh a && isDigitCh c && isDigitCh d then [r] else []
   | _ => [])

/-- `\b` after the match: next character is absent or not a word character. -/
def notWordStart : List Char → Bool
  | [] => true
  | c :: _ => !isWordCh c

/-- The optional range tail `\s*-\s*\d{1,2}:\d{2}` followed by `\b`. -/
def tsTail (r : List Char) : Bool :=
  match r.dropWhile isWSCh with
  | c :: t => c = '-' && (mmssRem (t.dropWhile isWSCh)).any notWordStart
  | [] => false

/-- Matcher for the timestamp regex body at the head of the list:
`(?:\d{1,2}):\d{2}(?:\s*-\s*\d{1,2}:\d{2})?\b`. -/
def atTs (cs : List Char) : Bool :=
  (mmssRem cs).any (fun r => notWordStart r || tsTail r)

/-- Scanner for `/\b(?:\d{1,2}):\d{2}(?:\s*-\s*\d{1,2}:\d{2})?\b/`,
tracking whether the previous character was a word character (for the
leading `\b`; the first matched character is a digit, so the boundary holds
iff the previous character is not a word character). -/
def scanTs : Bool → List Char → Bool
  | _, [] => false
  | prevW, c :: t => (!prevW && atTs (c :: t)) || scanTs (isWordCh c) t

/-- Matcher for `/page\s+\d+\s*\(physical\)/i` at the head of the list. -/
def atPage (cs : List Char) : Bool :=
  match matchCI "page".data cs with
  | none => false
  | some r =>
    match r with
    | [] => false
    | c :: t =>
      isWSCh c &&
        (match (c :: t).dropWhile isWSCh with
         | d :: t2 =>
           isDigitCh d &&
             (matchCI "(physical)".data
               (((d :: t2).dropWhile isDigitCh).dropWhile isWSCh)).isSome
         | [] => false)

/-- `citesVideo` of `textCitesMaterial`: the disjunction of the three
video-citation regexes, in source order. -/
def citesVideoB (tc : List Char) : Bool :=
  anySuffix atYtVideo tc || scanTs false tc || scanBWord "youtube".data false tc

/-- `citesPage` of `textCitesMaterial` (the source lower-cases the text first;
the pattern also carries `/i`, so case-insensitive matching on the raw text is
equivalent). -/
def citesPageB (tc : List Char) : Bool := anySuffix atPage tc

/-! ## Dynamic source-name regex (escaping + construction) -/

/-- The JS regex metacharacters escaped by
`String(name).replace(/[.*+?^${}()|[\]\\]/g, '\\$&')`. -/
def regexMeta (c : Char) : Bool :=
  c = '.' || c = '*' || c = '+' || c = '?' || c = '^' || c = '$' ||
  c = Char.ofNat 123 || c = Char.ofNat 125 || c = '(' || c = ')' ||
  c = '|' || c = '[' || c = ']' || c = '\\'

/-- The escaping step: prepend a backslash before every metacharacter. -/
def escapeRegex : List Char → List Char
  | [] => []
  | c :: t => if regexMeta c then '\\' :: c :: escapeRegex t else c :: escapeRegex t

/-- Decode a pattern that denotes a pure literal (every metacharacter escaped,
no other constructs).  Returns `none` for any pattern outside this fragment:
such a pattern is a genuinely dynamic regex, whose behaviour we leave
unspecified and model as a possible exception (see `regexTestCI`). -/
def literalOfPattern : List Char → Option (List Char)
  | [] => some []
  | c :: t =>
    if c = '\\' then
      match t with
      | [] => none
      | d :: t2 => if regexMeta d then (literalOfPattern t2).map (d :: ·) else none
    else if regexMeta c then none
    else (literalOfPattern t).map (c :: ·)

/-- `new RegExp(pat, 'i').test(txt)`, modelled for the literal fragment:
a fully-escaped pattern matches as a case-insensitive literal substring;
anything else is treated as a potential runtime failure (`Except.error`),
which over-approximates `new RegExp` throwing. -/
def regexTestCI (pat txt : List Char) : Except Unit Bool :=
  match literalOfPattern pat with
  | some lit => .ok (containsCI txt lit)
  | none => .error ()

/-! ## `textCitesMaterial` and `enforceGrounding` (geminiService.js lines 5-50) -/

/-- The fixed refusal sentence (`REFUSAL` constant in geminiService.js). -/
def REFUSAL : String :=
  "I don\x27t have information about this topic in the provided study material."

/-- The `material` argument as the JS code sees it: possibly `null`, with a
`sources` field that may be absent / not an array, holding possibly-null names. -/
structure JsMaterial where
  sources : Option (List (Option String))
deriving DecidableEq

/-- The `material.sources.some(...)` loop of `textCitesMaterial`, in the
exception monad: for each name, escape it, skip it when the escaped pattern is
empty (the `safe &&` guard), otherwise run the dynamically-built regex. -/
def citesNamedE (tc : List Char) : List (Option String) → Except Unit Bool
  | [] => .ok false
  | name :: rest =>
    let nm := jsNameStr name
    let safe := escapeRegex nm.data
    if safe.isEmpty then citesNamedE tc rest
    else
      match regexTestCI safe tc with
      | .error e => .error e
      | .ok true => .ok true
      | .ok false => citesNamedE tc rest
where
  /-- `String(name || '')`. -/
  jsNameStr : Option String → String
    | some s => s
    | none => ""

/-- `(text || '')` as a character list. -/
def tcOf : Option String → List Char
  | some s => s.data
  | none => []

/-- The body of `textCitesMaterial` before its `try { ... } catch { return false }`
wrapper.  `text` may be `null`/`undefined` (`Option`); `(text || '')` is the
empty list in that case. -/
def textCitesMaterialE (text : Option String) (material : Option JsMaterial) :
    Except Unit Bool :=
  let tc := tcOf text
  let citesVideo := citesVideoB tc
  let citesPage := citesPageB tc
  match material with
  | none => .ok (citesVideo || citesPage)
  | some m =>
    match m.sources with
    | none => .ok (citesVideo || citesPage)
    | some names =>
      match citesNamedE tc names with
      | .ok b => .ok (citesVideo || citesPage || b)
      | .error e => .error e

/-- `textCitesMaterial`: the body wrapped in the catch-all returning `false`. -/
def textCitesMaterial (text : Option String) (material : Option JsMaterial) : Bool :=
  match textCitesMaterialE text material with
  | .ok b => b
  | .error _ => false

/-- Result record `{answer, isGrounded}` of `enforceGrounding`. -/
structure GroundRes where
  answer : String
  isGrounded : Bool
deriving DecidableEq

/-- The greeting alternation
`/^(hello|hi|hey|good morning|good afternoon|good evening|nice to meet you|thank you|thanks|bye|goodbye)/i`
applied to the trimmed text: anchored at the start, so it matches iff some
alternative is a case-insensitive prefix. -/
def isGreetingB (s : String) : Bool :=
  ["hello", "hi", "hey", "good morning", "good afternoon", "good evening",
   "nice to meet you", "thank you", "thanks", "bye", "goodbye"].any
    (fun w => (matchCI w.data s.data).isSome)

/-- Number of single-space characters in a list. -/
def countSp : List Char → Nat
  | [] => 0
  | c :: t => (if c = ' ' then 1 else 0) + countSp t

/-- `text.trim().split(' ').length < 15`: `split(' ')` splits on single space
characters, so the length is (number of `' '` occurrences) + 1. -/
def isShortB (s : String) : Bool := decide (countSp s.data + 1 < 15)

/-- `text.includes('?')` (on the untrimmed text). -/
def hasQm (s : String) : Bool := s.data.any (fun c => c = '?')

/-- `enforceGrounding(text, material, mode)` (geminiService.js lines 27-50). -/
def enforceGrounding (text : String) (material : Option JsMaterial)
    (mode : String) : GroundRes :=
  if mode = "dialogue" then
    let tr := jsTrim text
    if isGreetingB tr || (isShortB tr && !hasQm text) then
      { answer := tr, isGrounded := true }
    else
      { answer := tr, isGrounded := textCitesMaterial (some text) material }
  else
    if text ≠ "" ∧ jsTrim text ≠ REFUSAL ∧
        textCitesMaterial (some text) material = true then
      { answer := jsTrim text, isGrounded := true }
    else
      { answer := REFUSAL, isGrounded := false }

/-! ## `extractVideoId` (ingestion.js lines 23-34) -/

/-- Characters terminating the capture group `[^&\n?#]+`. -/
def capTerm (c : Char) : Bool := c = '&' || c = '\n' || c = '?' || c = '#'

/-- Try one literal alternative at the current position and take the
(non-empty) capture that follows. -/
def tryCap (lit : String) (cs : List Char) : Option String :=
  match matchCS lit.data cs with
  | some r =>
    let cap := r.takeWhile (fun c => !capTerm c)
    if cap.isEmpty then none else some (String.mk cap)
  | none => none

/-- First pattern of `extractVideoId`:
`(?:youtube\.com\/watch\?v=|youtu\.be\/|youtube\.com\/embed\/)([^&\n?#]+)`;
at each position alternatives are tried in order. -/
def p1At (cs : List Char) : Option String :=
  match tryCap "youtube.com/watch?v=" cs with
  | some v => some v
  | none =>
    match tryCap "youtu.be/" cs with
    | some v => some v
    | none => tryCap "youtube.com/embed/" cs

/-- Scan positions left to right with a positional matcher. -/
def scanFirst (f : List Char → Option String) : List Char → Option String
  | [] => f []
  | c :: t =>
    match f (c :: t) with
    | some v => some v
    | none => scanFirst f t

/-- Greedy `.*v=([^&\n?#]+)` after the literal `youtube.com/watch?`:
the dot cannot cross a newline, and greediness picks the LAST viable `v=`. -/
def p2Last : List Char → Option String
  | [] => none
  | c :: t =>
    if c = '\n' then none
    else
      match p2Last t with
      | some v => some v
      | none => tryCap "v=" (c :: t)

/-- Second pattern of `extractVideoId`: `youtube\.com\/watch\?.*v=([^&\n?#]+)`. -/
def p2At (cs : List Char) : Option String :=
  match matchCS "youtube.com/watch?".data cs with
  | some r => p2Last r
  | none => none

/-- `extractVideoId(url)`: first pattern wins, else second pattern, else `null`. -/
def extractVideoId (u : String) : Option String :=
  match scanFirst p1At u.data with
  | some v => some v
  | none => scanFirst p2At u.data

/-! ## `ingestStudyMaterials` (ingestion.js lines 125-235) -/

/-- One entry of `processedSourcesInfo`: `{ name, type }`. -/
structure SourceInfo where
  name : String
  type : String
deriving DecidableEq

/-- One prompt fragment ("context part"): inline text or a remote-file handle. -/
inductive Part where
  | fileData (mimeType fileUri : String)
  | text (s : String)
deriving DecidableEq

/-- Successful result of `processDriveFile` (ingestion.js lines 39-84). -/
structure DriveFileRes where
  fileUri : String
  mimeType : String
  name : String
  physicalPages : Option Nat
deriving DecidableEq

/-- A source object as consumed by the ingestion loop.  Absent JS fields are
`none`. -/
structure IngestSource where
  type : String
  name : Option String := none
  url : Option String := none
  fileUri : Option String := none
  mimeType : Option String := none
  text : Option String := none
  content : Option String := none
deriving DecidableEq

/-- The effectful extractor boundary: `processDriveFile` performs a network
download and a Gemini file upload, so its outcome per call is an oracle
parameter; `Except.error msg` models the function throwing with message `msg`. -/
structure Oracle where
  drive : Option String → Except String DriveFileRes

/-- `\n=== SOURCE: name (kind) ===\nbody\n`. -/
def srcHeader (name kind body : String) : String :=
  "\n=== SOURCE: " ++ name ++ " (" ++ kind ++ ") ===\n" ++ body ++ "\n"

/-- The physical-page-count notice pushed for a drive PDF
(ingestion.js lines 181-185). -/
def metaText (name : String) (p : Nat) : String :=
  "\n=== SOURCE META: " ++ name ++ " ===\nPhysical page count: " ++ natStr p ++
  "\nAlways cite using \"Page X (Physical)\" in the range 1-" ++ natStr p ++
  ". Do not use printed page numbers if they differ from physical count.\n"

/-- The synthetic error notice pushed when a source fails
(ingestion.js line 214). -/
def errNote (name msg : String) : String :=
  "\n[System Error: Failed to load source " ++ name ++ ": " ++ msg ++ "]\n"

/-- The YouTube passthrough fragment (ingestion.js lines 192-195). -/
def ytText (name url : String) (vid : Option String) : String :=
  "\n=== SOURCE: " ++ name ++ " (YouTube Video) ===\nURL: " ++ url ++
  "\nVideo ID: " ++ (match vid with | some v => v | none => "null") ++
  "\n[Instruction to Model: This is a YouTube video source. Please use your internal video understanding capabilities to access and analyze the content of this video from the provided URL.]\n"

/-- `source.name || \x60Source ${index + 1}\x60`. -/
def displayName (i : Nat) (src : IngestSource) : String :=
  match src.name with
  | some n => if n = "" then "Source " ++ natStr (i + 1) else n
  | none => "Source " ++ natStr (i + 1)

/-- `source.mimeType || 'application/pdf'`. -/
def mimeOr : Option String → String
  | some m => if m = "" then "application/pdf" else m
  | none => m0
where m0 : String := "application/pdf"

/-- One iteration of the ingestion for-loop including its try/catch
(ingestion.js lines 151-216): the fragments pushed to `processedParts`
(in order) and the `{name,type}` info pushed to `processedSourcesInfo`
(`none` when this source contributed no info entry).  Notes:
for a drive file, the page-count notice (when `physicalPages` is truthy)
is pushed BEFORE the fragment referencing the file itself, because the
source pushes it inside the `switch` and only pushes `part` afterwards;
`extractVideoId(undefined)` throws a TypeError that the per-source catch
converts into an error notice; in the `text` case an absent `content`
renders as the string `undefined` per JS template semantics. -/
def sourceStep (o : Oracle) (i : Nat) (src : IngestSource) :
    List Part × Option SourceInfo :=
  let info0 : SourceInfo := ⟨displayName i src, src.type⟩
  if src.type = "file" then
    if truthyOpt src.fileUri then
      ([Part.fileData (mimeOr src.mimeType) (src.fileUri.getD "")], some info0)
    else if truthyOpt src.text then
      ([Part.text (srcHeader info0.name "File" (src.text.getD ""))], some info0)
    else ([], none)
  else if src.type = "drive" then
    match o.drive src.url with
    | .ok d =>
      ((match d.physicalPages with
        | some p => if p ≠ 0 then [Part.text (metaText d.name p)] else []
        | none => []) ++ [Part.fileData d.mimeType d.fileUri],
       some ⟨d.name, src.type⟩)
    | .error msg => ([Part.text (errNote info0.name msg)], none)
  else if src.type = "youtube" then
    match src.url with
    | none =>
      ([Part.text (errNote info0.name
        "Cannot read properties of undefined (reading \x27match\x27)")], none)
    | some u => ([Part.text (ytText info0.name u (extractVideoId u))], some info0)
  else if src.type = "text" then
    ([Part.text (srcHeader info0.name "Text" (jsStr src.content))], some info0)
  else ([], none)

/-- `stats` object assembled at the end of ingestion. -/
structure Stats where
  sourceCount : Nat
  sources : List SourceInfo
  isMultimodal : Bool
deriving DecidableEq

/-- The StudyMaterial value returned by `ingestStudyMaterials`. -/
structure StudyMaterial where
  contextParts : List Part
  stats : Stats
  sources : List String
deriving DecidableEq

/-- The `for (const [index, source] of sources.entries())` loop, accumulating
`processedParts` and `processedSourcesInfo` in push order. -/
def ingestLoop (o : Oracle) : Nat → List IngestSource → List Part × List SourceInfo
  | _, [] => ([], [])
  | i, s :: rest =>
    let step := sourceStep o i s
    let tail := ingestLoop o (i + 1) rest
    (step.1 ++ tail.1,
     match step.2 with
     | some inf => inf :: tail.2
     | none => tail.2)

/-- The value `{ contextParts, stats, sources }` built from the loop results
(ingestion.js lines 218-230). -/
def buildMaterial (o : Oracle) (srcs : List IngestSource) : StudyMaterial :=
  let r := ingestLoop o 0 srcs
  ⟨r.1, ⟨r.2.length, r.2, true⟩, r.2.map (fun inf => inf.name)⟩

/-- The environment variables consulted for default-notebook fallbacks. -/
structure Env where
  PDF_URL : Option String := none
  YOUTUBE_VIDEO_1 : Option String := none
  YOUTUBE_VIDEO_2 : Option String := none

/-- The fallback source list built when the default notebook has no sources
(ingestion.js lines 130-139); each env var is included only when truthy. -/
def fallbackSources (env : Env) : List IngestSource :=
  (if truthyOpt env.PDF_URL then
    [{ type := "drive", url := env.PDF_URL, name := some "Economics Textbook" }]
   else []) ++
  (if truthyOpt env.YOUTUBE_VIDEO_1 then
    [{ type := "youtube", url := env.YOUTUBE_VIDEO_1,
       name := some "Oligopoly - Kinked Demand" }]
   else []) ++
  (if truthyOpt env.YOUTUBE_VIDEO_2 then
    [{ type := "youtube", url := env.YOUTUBE_VIDEO_2,
       name := some "Oligopoly - Game Theory" }]
   else [])

/-- `ingestStudyMaterials(sources)` (ingestion.js lines 125-235).
`isDefaultActive` is `storage.isDefaultActive()`; the outer try/catch of the
source merely logs and rethrows, so it is the identity here. -/
def ingestStudyMaterials (o : Oracle) (isDefaultActive : Bool) (env : Env)
    (sources : Option (List IngestSource)) : Except String StudyMaterial :=
  match sources with
  | none | some [] =>
    if !isDefaultActive then .error "No sources provided for active notebook"
    else
      match fallbackSources env with
      | [] => .error "No sources provided"
      | f :: fb => .ok (buildMaterial o (f :: fb))
  | some (s :: rest) => .ok (buildMaterial o (s :: rest))

/-! ## `requireMaterial` signature comparison (geminiService.js lines 107-156) -/

/-- A source record of the active notebook as seen by `requireMaterial`
(only the fields the signature uses). -/
structure ActiveSource where
  type : Option String := none
  name : Option String := none
  url : Option String := none
  fileUri : Option String := none
deriving DecidableEq

/-- `Array.prototype.join(sep)`. -/
def joinStr (sep : String) : List String → String
  | [] => ""
  | [x] => x
  | x :: y :: rest => x ++ sep ++ joinStr sep (y :: rest)

/-- Lexicographic comparison on UTF code points (JS default sort order for
the ASCII strings involved here). -/
def lexLeChars : List Char → List Char → Bool
  | [], _ => true
  | _ :: _, [] => false
  | a :: as, b :: bs =>
    if a.toNat < b.toNat then true
    else if a.toNat = b.toNat then lexLeChars as bs
    else false

/-- Insertion into a sorted list of strings. -/
def insertStr (s : String) : List String → List String
  | [] => [s]
  | t :: ts => if lexLeChars s.data t.data then s :: t :: ts else t :: insertStr s ts

/-- `Array.prototype.sort()` on strings (default comparator). -/
def sortStrs : List String → List String
  | [] => []
  | s :: ss => insertStr s (sortStrs ss)

/-- One signature entry: `[s.type, s.name, s.url, s.fileUri].filter(Boolean).flatten(':')`. -/
def sigEntry (s : ActiveSource) : String :=
  joinStr ":" (([s.type, s.name, s.url, s.fileUri].filterMap id).filter (fun x => x ≠ ""))

/-- The `signature` closure of `requireMaterial` applied to the active sources. -/
def sigActive (l : List ActiveSource) : String :=
  joinStr "|" (sortStrs (l.map sigEntry))

/-- The stored study material as `requireMaterial` reads it back from storage
(`storage.setStudyMaterial` keeps `context`, `contextParts`, `sources` and
`stats`; `statsSources` is `material.stats.sources`, `none` when absent). -/
structure StoredMaterial where
  context : Option String
  contextParts : Option (List Part)
  sources : List String
  statsSources : Option (List SourceInfo)
deriving DecidableEq

/-- `materialSourceNames.slice().sort().flatten('|')` where `materialSourceNames`
is `material?.stats?.sources || material?.sources || []`.  When
`stats.sources` is present it is an array of `{name,type}` OBJECTS, and JS
default sort / join stringify each of them as `"[object Object]"`. -/
def sigMaterial (m : StoredMaterial) : String :=
  match m.statsSources with
  | some infos => joinStr "|" (sortStrs (infos.map (fun _ => "[object Object]")))
  | none => joinStr "|" (sortStrs m.sources)

/-- The `needsIngest` condition of `requireMaterial` (geminiService.js
lines 128-131): no material, or no context and no contextParts, or a non-empty
active source list whose signature differs from the material signature. -/
def needsIngest (material : Option StoredMaterial) (active : List ActiveSource) : Bool :=
  match material with
  | none => true
  | some m =>
    (!truthyOpt m.context && m.contextParts.isNone) ||
    (!active.isEmpty && sigActive active ≠ sigMaterial m)

/-- `storage.setStudyMaterial` applied to a fresh ingestion result:
`context` is absent, `contextParts`, `sources` and `stats` are kept. -/
def storeMaterial (m : StudyMaterial) : StoredMaterial :=
  ⟨none, some m.contextParts, m.sources, some m.stats.sources⟩

/-! ## Summary JSON extraction (geminiService.js lines 338-373) -/

/-- `'{'` (written by code point to keep brace characters out of literals). -/
def lbCh : Char := Char.ofNat 123

/-- `'}'`. -/
def rbCh : Char := Char.ofNat 125

/-- Backtick. -/
def btCh : Char := Char.ofNat 96

/-- `String.prototype.replace(pat, '')` with a global (and here
case-insensitive) literal pattern: scan left to right, drop each match and
continue after it.  Fuel-based so the kernel can evaluate it; the wrapper
passes the list length, which suffices because each step consumes at least
one character for the non-empty patterns used. -/
def removeAllCIFuel (pat : List Char) : Nat → List Char → List Char
  | 0, l => l
  | _ + 1, [] => []
  | fuel + 1, c :: t =>
    match matchCI pat (c :: t) with
    | some rest => removeAllCIFuel pat fuel rest
    | none => c :: removeAllCIFuel pat fuel t

/-- `replace(/pat/gi, '')` for a literal `pat`. -/
def removeAllCI (pat l : List Char) : List Char := removeAllCIFuel pat l.length l

/-- `String.prototype.indexOf(c)` (as `Option` instead of `-1`). -/
def firstIdx (c : Char) : List Char → Option Nat
  | [] => none
  | d :: t => if d = c then some 0 else (firstIdx c t).map (· + 1)

/-- `String.prototype.lastIndexOf(c)`. -/
def lastIdx (c : Char) (l : List Char) : Option Nat :=
  (firstIdx c l.reverse).map (fun k => l.length - 1 - k)

/-- `String.prototype.substring(a, b)`: swaps its arguments when needed and
clamps to the string length. -/
def jsSubstring (a b : Nat) (l : List Char) : List Char :=
  (l.drop (min a b)).take (max a b - min a b)

/-- `extractJson(text)` (geminiService.js lines 338-346): strip ```json
fences (case-insensitive) then remaining ``` fences, trim, and slice from the
first opening brace to the last closing brace when both exist. -/
def extractJsonChars (cs : List Char) : List Char :=
  let cleaned := trimChars (removeAllCI "```".data (removeAllCI "```json".data cs))
  match firstIdx lbCh cleaned, lastIdx rbCh cleaned with
  | some s, some e => jsSubstring s (e + 1) cleaned
  | _, _ => cleaned

/-- `extractJson` on strings. -/
def extractJson (s : String) : String := String.mk (extractJsonChars s.data)

/-- Outcome of `generateSummary`'s parse/retry logic: a parsed value, or the
hard-coded error-shaped summary with the first raw text attached. -/
inductive SummaryParsed (α : Type) where
  | parsedOk (v : α)
  | errorShaped (overview concepts examTips raw_debug : String)
deriving DecidableEq

/-- Fixed `overview` of the error-shaped summary. -/
def summaryErrOverview : String := "Could not parse summary. Please try again."

/-- Fixed single `concepts` entry of the error-shaped summary. -/
def summaryErrConcepts : String := "Error parsing concepts"

/-- Fixed single `examTips` entry of the error-shaped summary. -/
def summaryErrTips : String := "Error parsing tips"

/-- The parse / retry-once / degrade post-processing of `generateSummary`
(geminiService.js lines 347-373).  `parse` abstracts `JSON.parse` (`none`
models a throw); `retryGen ()` is the raw text of the one retry LLM call,
forced only on the failure path; the second component counts LLM calls. -/
def generateSummaryPost {α : Type} (parse : String → Option α) (raw : String)
    (retryGen : Unit → String) : SummaryParsed α × Nat :=
  match parse (extractJson raw) with
  | some v => (.parsedOk v, 1)
  | none =>
    let retryRaw := retryGen ()
    match parse (extractJson retryRaw) with
    | some v => (.parsedOk v, 2)
    | none => (.errorShaped summaryErrOverview summaryErrConcepts summaryErrTips raw, 2)

/-! ## `generateSuggestedQuestions` (geminiService.js lines 388-475) -/

/-- A JSON array element as relevant to the validation filter. -/
inductive JsItem where
  | str (s : String)
  | nonStr
deriving DecidableEq

/-- Outcome of `JSON.parse(raw)` in the suggestion path: an exception, a
non-array value, or an array of items. -/
inductive ParseOut where
  | threw
  | notArray
  | arr (items : List JsItem)
deriving DecidableEq

/-- Observable outcome of one `generateSuggestedQuestions` call: the returned
question list, whether the LLM was invoked, and the value written to the
cache (`none` when nothing was written). -/
structure SuggestOut where
  questions : List String
  llmCalled : Bool
  cacheWrite : Option (List String)
deriving DecidableEq

/-- Message returned when no study material is available. -/
def msgNoMaterial : String :=
  "Suggested questions are not available because no study material has been ingested."

/-- Fallback question used when `JSON.parse` throws. -/
def fallbackSuggestion : String := "Review the summary of the material."

/-- `generateSuggestedQuestions(options)`: cache short-circuit, material
check (`materialSources = none` models `requireMaterial` throwing, `some []`
a material with an empty source list), then parse / array fix-up / filter /
truncate / conditional cache write, exactly in source order. -/
def generateSuggestedQuestions (force : Bool) (cached : List String)
    (materialSources : Option (List String)) (parsed : ParseOut) : SuggestOut :=
  if !force && !cached.isEmpty then ⟨cached, false, none⟩
  else
    match materialSources with
    | none => ⟨[msgNoMaterial], false, none⟩
    | some [] => ⟨[msgNoMaterial], false, none⟩
    | some (_ :: _) =>
      let q0 : List JsItem :=
        match parsed with
        | .threw => [JsItem.str fallbackSuggestion]
        | .notArray => []
        | .arr items => items
      let q1 := q0.filterMap (fun it =>
        match it with
        | .str s => if 5 < (trimChars s.data).length then some s else none
        | .nonStr => none)
      let q2 := if 7 < q1.length then q1.take 7 else q1
      ⟨q2, true, if q2.isEmpty then none else some q2⟩

/-! ## Notebook store

The notebook-aware storage service (renameNotebook / deleteNotebook /
active-notebook tracking) is not among the provided source files — only its
callers are (`storage.isDefaultActive()`, the frontend notebook API, the
spec §3/§4.1).  It is therefore modelled from the spec below. -/

/-- Modelled from the spec: error kinds of notebook operations
(spec §4.1, §7: NotFound for unknown ids, PolicyViolation for mutating the
default notebook). -/
inductive NotebookError where
  | notFound
  | policyViolation
deriving DecidableEq

/-- Modelled from the spec: a notebook record; the default notebook has
id `"default"`, `isDefault = true`, always exists and cannot be renamed or
deleted (spec §3). -/
structure Notebook where
  id : String
  name : String
  isDefault : Bool
deriving DecidableEq

/-- Modelled from the spec: the process-wide notebook registry with the one
active notebook id (spec §3, §5). -/
structure NotebookState where
  notebooks : List Notebook
  activeId : String
deriving DecidableEq

/-- Modelled from the spec: look up a notebook by id. -/
def findNotebook (st : NotebookState) (id : String) : Option Notebook :=
  st.notebooks.find? (fun n => n.id == id)

/-- Modelled from the spec: `renameNotebook(id, name)` fails with NotFound on
an unknown id and with PolicyViolation when the target is the default
notebook (spec §4.1). -/
def renameNotebook (st : NotebookState) (id newName : String) :
    Except NotebookError NotebookState :=
  match findNotebook st id with
  | none => .error .notFound
  | some nb =>
    if nb.isDefault then .error .policyViolation
    else .ok { st with notebooks := st.notebooks.map (fun n =>
        if n.id == id then { n with name := newName } else n) }

/-- Modelled from the spec: `deleteNotebook(id)` fails with NotFound on an
unknown id, with PolicyViolation on the default notebook, and otherwise
removes the notebook, reassigning the active notebook to `"default"` when the
deleted notebook was active (spec §4.1, §3 lifecycle). -/
def deleteNotebook (st : NotebookState) (id : String) :
    Except NotebookError NotebookState :=
  match findNotebook st id with
  | none => .error .notFound
  | some nb =>
    if nb.isDefault then .error .policyViolation
    else .ok { notebooks := st.notebooks.filter (fun n => n.id != id),
               activeId := if st.activeId == id then "default" else st.activeId }

/-! ## Spec-side reference definitions (for refinement comparisons only) -/

/-- Modelled from the spec wording of claim C2 ("fewer than 15
whitespace-separated words"): the number of maximal non-empty runs of
non-whitespace characters. -/
def wsWordsAux : Bool → List Char → Nat
  | _, [] => 0
  | inW, c :: t =>
    if isWSCh c then wsWordsAux false t
    else (if inW then 0 else 1) + wsWordsAux true t

/-- Modelled from the spec: whitespace-separated word count of a string. -/
def specWsWords (s : String) : Nat := wsWordsAux false s.data

/-! ## Concrete inputs for counterexamples and witnesses -/

/-- An oracle whose drive extractor always fails (never consulted for
text/youtube sources). -/
def oracleOffline : Oracle := ⟨fun _ => .error "offline"⟩

/-- An oracle returning a fixed drive PDF with 9 physical pages. -/
def oracleDrive9 : Oracle :=
  ⟨fun _ => .ok ⟨"files/abc", "application/pdf", "Google Drive PDF - abc", some 9⟩⟩

/-- An oracle whose drive extractor fails with message `boom`. -/
def oracleBoom : Oracle := ⟨fun _ => .error "boom"⟩

/-- Empty environment (no fallback sources configured). -/
def env0 : Env := {}

/-- A plain text source named `Econ Note`. -/
def srcEconNote : IngestSource :=
  { type := "text", name := some "Econ Note",
    content := some "Supply rises when price rises." }

/-- A drive source (URL field present). -/
def srcDrive : IngestSource :=
  { type := "drive", name := some "Chapter PDF",
    url := some "https://drive.google.com/file/d/0123456789abcdefghijklmno/view" }

/-- The active-notebook source record corresponding to `srcEconNote`. -/
def activeEconNote : ActiveSource :=
  { type := some "text", name := some "Econ Note" }

/-- Sixteen newline-separated words, no spaces, no question mark, no
citation-like content. -/
def dlgText16 : String :=
  "alpha\nbeta\ngamma\ndelta\nepsilon\nzeta\nmu\nnu\nxi\nrho\nomicron\nlambda\nkappa\niota\nupsilon\nomega"

/-- An environment with only the textbook URL configured. -/
def envP : Env := { PDF_URL := some "http://example.org/book.pdf" }

/-- The default notebook of the witness store. -/
def nbDefault : Notebook := ⟨"default", "My Notebook", true⟩

/-- A non-default notebook of the witness store. -/
def nbWork : Notebook := ⟨"nb1", "Work", false⟩

/-- A witness notebook store whose active notebook is the non-default one. -/
def nbState : NotebookState := ⟨[nbDefault, nbWork], "nb1"⟩

/-- A parser accepting exactly the concrete JSON payload. -/
def parseOnlyJ0 : String → Option Nat :=
  fun s => if s = "\x7b\"a\": 1\x7d" then some 7 else none

/-- `List.enum` starting at a given index (the `sources.entries()` iterator). -/
def enumFrom {α : Type} : Nat → List α → List (Nat × α)
  | _, [] => []
  | i, a :: t => (i, a) :: enumFrom (i + 1) t

/-- The per-source fragment blocks of one ingestion run, in source order. -/
def ingestBlocks (o : Oracle) (l : List IngestSource) : List (List Part) :=
  (enumFrom 0 l).map (fun p => (sourceStep o p.1 p.2).1)

/-- The per-source info entries of one ingestion run, in source order,
skipping sources that contributed none. -/
def ingestInfos (o : Oracle) (l : List IngestSource) : List SourceInfo :=
  (enumFrom 0 l).filterMap (fun p => (sourceStep o p.1 p.2).2)

end Studionyx

namespace Studionyx

/-! ## Helper lemmas -/

theorem ingestLoop_eq_decomp (o : Oracle) (l : List IngestSource) : ∀ i : Nat,
    ingestLoop o i l =
      (((enumFrom i l).map (fun p => (sourceStep o p.1 p.2).1)).flatten,
       (enumFrom i l).filterMap (fun p => (sourceStep o p.1 p.2).2)) := by
  induction l with
  | nil => intro i; rfl
  | cons s rest ih =>
    intro i
    simp only [ingestLoop, enumFrom, List.map_cons, List.flatten, List.filterMap_cons,
      ih (i + 1)]
    cases h : (sourceStep o i s).2 <;> simp [h]

theorem enumFrom_mem_of_get? {α : Type} (l : List α) :
    ∀ (i k : Nat) (a : α), l.get? k = some a → (i + k, a) ∈ enumFrom i l := by
  induction l with
  | nil => intro i k a h; simp [List.get?] at h
  | cons x t ih =>
    intro i k a h
    cases k with
    | zero =>
      simp [List.get?] at h
      subst h
      simp [enumFrom]
    | succ k =>
      simp only [List.get?] at h
      have := ih (i + 1) k a h
      have harith : i + (k + 1) = i + 1 + k := by omega
      rw [harith]
      simp [enumFrom, this]

theorem buildMaterial_eq (o : Oracle) (l : List IngestSource) :
    buildMaterial o l =
      ⟨(ingestBlocks o l).flatten,
       ⟨(ingestInfos o l).length, ingestInfos o l, true⟩,
       (ingestInfos o l).map (fun inf => inf.name)⟩ := by
  unfold buildMaterial ingestBlocks ingestInfos
  rw [ingestLoop_eq_decomp]

/-! ## Claim theorems -/

/-- C1: in Q&A mode, `enforceGrounding(T, material, 'qa')` returns
`{answer: T.trim(), isGrounded: true}` if and only if `T` is non-empty,
`T.trim()` differs from the fixed refusal string, and citation detection
succeeds; in every other case it returns exactly
`{answer: REFUSAL, isGrounded: false}` (second conjunct: the result is always
one of these two values, so failing the condition forces the refusal). -/
theorem c1_enforceGrounding_qa (T : String) (mat : Option JsMaterial) :
    (enforceGrounding T mat "qa" = ⟨jsTrim T, true⟩ ↔
      (T ≠ "" ∧ jsTrim T ≠ REFUSAL ∧ textCitesMaterial (some T) mat = true)) ∧
    (enforceGrounding T mat "qa" = ⟨jsTrim T, true⟩ ∨
      enforceGrounding T mat "qa" = ⟨REFUSAL, false⟩) := by
  unfold enforceGrounding
  rw [if_neg (by decide : ¬("qa" : String) = "dialogue")]
  by_cases h : T ≠ "" ∧ jsTrim T ≠ REFUSAL ∧ textCitesMaterial (some T) mat = true
  · rw [if_pos h]
    exact ⟨⟨fun _ => h, fun _ => rfl⟩, Or.inl rfl⟩
  · rw [if_neg h]
    refine ⟨⟨fun he => ?_, fun hc => absurd hc h⟩, Or.inr rfl⟩
    exact absurd (congrArg GroundRes.isGrounded he) (by simp)

/-- C1 witness: a page-citing answer is passed through as grounded; an
uncited answer is replaced by the refusal. -/
theorem c1_enforceGrounding_qa_witness :
    enforceGrounding "See page 3 (physical)." (some ⟨some []⟩) "qa" =
      ⟨"See page 3 (physical).", true⟩ ∧
    enforceGrounding "No citation at all." (some ⟨some []⟩) "qa" =
      ⟨REFUSAL, false⟩ := by
  constructor
  · exact ((c1_enforceGrounding_qa "See page 3 (physical)." (some ⟨some []⟩)).1.mpr
      (by decide)).trans (by decide)
  · exact Or.resolve_left
      (c1_enforceGrounding_qa "No citation at all." (some ⟨some []⟩)).2 (by decide)

/-- C2 counterexample: the claim measures shortness in "whitespace-separated
words"; the code uses `text.trim().split(' ').length`, which splits on single
space characters only.  `dlgText16` has 16 whitespace-separated words (so the
claim predicts `isGrounded` = citation detection = `false`: it is no greeting
and cites nothing), yet the code returns `isGrounded = true` because the
newline-separated text contains no space character. -/
theorem c2_dialogue_counterexample :
    (enforceGrounding dlgText16 none "dialogue").isGrounded = true ∧
    specWsWords dlgText16 = 16 ∧
    isGreetingB (jsTrim dlgText16) = false ∧
    hasQm dlgText16 = false ∧
    textCitesMaterial (some dlgText16) none = false := by
  refine ⟨by decide, by decide, by decide, by decide, by decide⟩

/-- C2 (amended): in dialogue mode the answer is always `T.trim()` (never the
refusal string), and `isGrounded` is true exactly when the trimmed text starts
with a greeting word, or `T.trim().split(' ')` has fewer than 15 elements
(split on single spaces, not general whitespace) and `T` contains no `?`;
otherwise `isGrounded` equals citation detection. -/
theorem c2_dialogue_amended (T : String) (mat : Option JsMaterial) :
    enforceGrounding T mat "dialogue" =
      ⟨jsTrim T,
       (isGreetingB (jsTrim T) || (isShortB (jsTrim T) && !hasQm T)) ||
         textCitesMaterial (some T) mat⟩ := by
  unfold enforceGrounding
  rw [if_pos rfl]
  by_cases h : (isGreetingB (jsTrim T) || (isShortB (jsTrim T) && !hasQm T)) = true
  · rw [if_pos h, h]
    simp
  · rw [if_neg (by simpa using h)]
    rw [Bool.not_eq_true] at h
    rw [h]
    simp

/-- C3 (code bug): re-ingesting a single unchanged `text` source.  After
ingesting `srcEconNote` and storing the result, the active notebook still
holds exactly that source, yet `needsIngest` is `true`: the signature of the
active sources is `"text:Econ Note"` while the stored material's signature is
computed from `stats.sources` — an array of `{name,type}` objects that JS
stringifies to `"[object Object]"` — so the two can never agree and the
material is re-ingested on every orchestrator call. -/
theorem c3_requireMaterial_reingests_on_unchanged_sources :
    ingestStudyMaterials oracleOffline true env0 (some [srcEconNote]) =
      .ok (buildMaterial oracleOffline [srcEconNote]) ∧
    sigActive [activeEconNote] = "text:Econ Note" ∧
    sigMaterial (storeMaterial (buildMaterial oracleOffline [srcEconNote])) =
      "[object Object]" ∧
    needsIngest (some (storeMaterial (buildMaterial oracleOffline [srcEconNote])))
      [activeEconNote] = true := by
  refine ⟨rfl, by decide, by decide, by decide⟩

/-- C4 counterexample: ingesting one drive source with 9 physical pages
yields `contextParts` in which the page-count notice (a `Part.text` whose
content is `metaText ...`) comes FIRST, immediately BEFORE the parent
`fileData` fragment — the claim places it immediately after. -/
theorem c4_meta_notice_counterexample :
    ingestStudyMaterials oracleDrive9 true env0 (some [srcDrive]) =
      .ok ⟨[Part.text (metaText "Google Drive PDF - abc" 9),
            Part.fileData "application/pdf" "files/abc"],
           ⟨1, [⟨"Google Drive PDF - abc", "drive"⟩], true⟩,
           ["Google Drive PDF - abc"]⟩ := rfl

/-- C4 (amended): for every non-empty source list, `contextParts` is the
concatenation, in input order, of the per-source fragment blocks, and
`StudyMaterial.sources` lists the (successfully processed) sources' names in
add-order; the only extra fragments are the drive-PDF physical-page-count
notices, and each such notice is placed immediately BEFORE its parent drive
fragment (second conjunct: a successful drive step with a non-zero page count
produces exactly `[notice, parent]`). -/
theorem c4_ingest_order_amended :
    (∀ (o : Oracle) (dflt : Bool) (env : Env) (s : IngestSource)
       (rest : List IngestSource),
       ingestStudyMaterials o dflt env (some (s :: rest)) =
         .ok ⟨(ingestBlocks o (s :: rest)).flatten,
              ⟨(ingestInfos o (s :: rest)).length, ingestInfos o (s :: rest), true⟩,
              (ingestInfos o (s :: rest)).map (fun inf => inf.name)⟩) ∧
    (∀ (o : Oracle) (i : Nat) (src : IngestSource) (d : DriveFileRes) (p : Nat),
       src.type = "drive" → o.drive src.url = .ok d →
       d.physicalPages = some p → p ≠ 0 →
         sourceStep o i src =
           ([Part.text (metaText d.name p), Part.fileData d.mimeType d.fileUri],
            some ⟨d.name, src.type⟩)) := by
  constructor
  · intro o dflt env s rest
    show Except.ok (buildMaterial o (s :: rest)) = _
    rw [buildMaterial_eq]
  · intro o i src d p htype hdrive hpp hp
    unfold sourceStep
    rw [if_neg (by rw [htype]; decide), if_pos htype, hdrive]
    simp [hpp, hp]

/-- C4 witness: the amended per-source shape at a concrete drive source. -/
theorem c4_ingest_order_amended_witness :
    ingestStudyMaterials oracleDrive9 true env0 (some [srcDrive]) =
      .ok ⟨(ingestBlocks oracleDrive9 [srcDrive]).flatten,
           ⟨(ingestInfos oracleDrive9 [srcDrive]).length,
            ingestInfos oracleDrive9 [srcDrive], true⟩,
           (ingestInfos oracleDrive9 [srcDrive]).map (fun inf => inf.name)⟩ ∧
    sourceStep oracleDrive9 0 srcDrive =
      ([Part.text (metaText "Google Drive PDF - abc" 9),
        Part.fileData "application/pdf" "files/abc"],
       some ⟨"Google Drive PDF - abc", "drive"⟩) :=
  ⟨c4_ingest_order_amended.1 oracleDrive9 true env0 srcDrive [],
   (c4_ingest_order_amended.2 oracleDrive9 0 srcDrive
      ⟨"files/abc", "application/pdf", "Google Drive PDF - abc", some 9⟩ 9
      rfl rfl rfl (by decide)).trans (by decide)⟩

/-- C5: a source whose drive extraction throws does not make ingestion fail:
the run still returns `.ok`, the failed source contributes exactly one
synthetic error-notice text fragment (naming the source and the error
message, and present in `contextParts`), it contributes no entry to
`stats.sources` / `sources` (so `sourceCount` counts only processed sources),
and the remaining sources are still processed (the result decomposes into the
per-source blocks of the whole input list). -/
theorem c5_ingest_error_handling
    (o : Oracle) (dflt : Bool) (env : Env) (s : IngestSource)
    (rest : List IngestSource) (i : Nat) (src : IngestSource) (msg : String)
    (hget : (s :: rest).get? i = some src)
    (htype : src.type = "drive")
    (herr : o.drive src.url = .error msg) :
    ∃ m, ingestStudyMaterials o dflt env (some (s :: rest)) = .ok m ∧
      m.contextParts = (ingestBlocks o (s :: rest)).flatten ∧
      sourceStep o i src = ([Part.text (errNote (displayName i src) msg)], none) ∧
      Part.text (errNote (displayName i src) msg) ∈ m.contextParts ∧
      m.stats.sources = ingestInfos o (s :: rest) ∧
      m.stats.sourceCount = (ingestInfos o (s :: rest)).length ∧
      m.sources = (ingestInfos o (s :: rest)).map (fun inf => inf.name) := by
  have hstep : sourceStep o i src =
      ([Part.text (errNote (displayName i src) msg)], none) := by
    unfold sourceStep
    rw [if_neg (by rw [htype]; decide), if_pos htype, herr]
  refine ⟨buildMaterial o (s :: rest), rfl, ?_, hstep, ?_, ?_, ?_, ?_⟩
  · rw [buildMaterial_eq]
  · have hmem : ((i, src) : Nat × IngestSource) ∈ enumFrom 0 (s :: rest) := by
      have := enumFrom_mem_of_get? (s :: rest) 0 i src hget
      simpa using this
    have hblk : [Part.text (errNote (displayName i src) msg)] ∈
        ingestBlocks o (s :: rest) := by
      unfold ingestBlocks
      refine List.mem_map.mpr ⟨(i, src), hmem, ?_⟩
      rw [hstep]
    rw [buildMaterial_eq]
    exact List.mem_flatten.mpr ⟨_, hblk, by simp⟩
  · rw [buildMaterial_eq]
  · rw [buildMaterial_eq]
  · rw [buildMaterial_eq]

/-- C5 witness: a failing drive source followed by a good text source. -/
theorem c5_ingest_error_handling_witness :
    ∃ m, ingestStudyMaterials oracleBoom true env0 (some [srcDrive, srcEconNote]) =
        .ok m ∧
      m.contextParts = (ingestBlocks oracleBoom [srcDrive, srcEconNote]).flatten ∧
      sourceStep oracleBoom 0 srcDrive =
        ([Part.text (errNote (displayName 0 srcDrive) "boom")], none) ∧
      Part.text (errNote (displayName 0 srcDrive) "boom") ∈ m.contextParts ∧
      m.stats.sources = ingestInfos oracleBoom [srcDrive, srcEconNote] ∧
      m.stats.sourceCount = (ingestInfos oracleBoom [srcDrive, srcEconNote]).length ∧
      m.sources = (ingestInfos oracleBoom [srcDrive, srcEconNote]).map
        (fun inf => inf.name) :=
  c5_ingest_error_handling oracleBoom true env0 srcDrive [srcEconNote] 0 srcDrive
    "boom" rfl rfl rfl

/-- C6: with a null/empty source list, a non-default active notebook always
fails with the NoSources error; the default notebook substitutes the
environment fallbacks (at most one textbook/drive URL and at most two video
URLs) and processes them, failing with the NoSources error exactly when no
fallback is configured. -/
theorem c6_ingest_no_sources :
    (∀ (o : Oracle) (env : Env),
       ingestStudyMaterials o false env none =
         .error "No sources provided for active notebook" ∧
       ingestStudyMaterials o false env (some []) =
         .error "No sources provided for active notebook") ∧
    (∀ (o : Oracle) (env : Env), fallbackSources env = [] →
       ingestStudyMaterials o true env none = .error "No sources provided" ∧
       ingestStudyMaterials o true env (some []) = .error "No sources provided") ∧
    (∀ (o : Oracle) (env : Env) (f : IngestSource) (fb : List IngestSource),
       fallbackSources env = f :: fb →
       ingestStudyMaterials o true env none = .ok (buildMaterial o (f :: fb)) ∧
       ingestStudyMaterials o true env (some []) =
         .ok (buildMaterial o (f :: fb))) ∧
    (∀ env : Env, (fallbackSources env).length ≤ 3 ∧
       ((fallbackSources env).filter (fun s => s.type == "drive")).length ≤ 1 ∧
       ((fallbackSources env).filter (fun s => s.type == "youtube")).length ≤ 2 ∧
       (fallbackSources env).all
         (fun s => s.type == "drive" || s.type == "youtube") = true) := by
  refine ⟨fun o env => ⟨rfl, rfl⟩, fun o env h => ?_, fun o env f fb h => ?_, ?_⟩
  · constructor
    all_goals
      unfold ingestStudyMaterials
      rw [h]
      rfl
  · constructor
    all_goals
      unfold ingestStudyMaterials
      rw [h]
      rfl
  · intro env
    cases h1 : truthyOpt env.PDF_URL <;> cases h2 : truthyOpt env.YOUTUBE_VIDEO_1 <;>
      cases h3 : truthyOpt env.YOUTUBE_VIDEO_2 <;>
      simp [fallbackSources, h1, h2, h3, List.filter]

/-- C6 witness: with only the textbook URL configured the fallback list is
used; with nothing configured the default notebook also fails. -/
theorem c6_ingest_no_sources_witness :
    ingestStudyMaterials oracleOffline true envP none =
      .ok (buildMaterial oracleOffline
        [{ type := "drive", url := some "http://example.org/book.pdf",
           name := some "Economics Textbook" }]) ∧
    ingestStudyMaterials oracleOffline true env0 none =
      .error "No sources provided" :=
  ⟨(c6_ingest_no_sources.2.2.1 oracleOffline envP
      { type := "drive", url := some "http://example.org/book.pdf",
        name := some "Economics Textbook" } [] (by decide)).1,
   (c6_ingest_no_sources.2.1 oracleOffline env0 (by decide)).1⟩

/-- C8: `generateSuggestedQuestions` returns a non-empty cached list verbatim
when called without `force`, without invoking the LLM and without touching
the cache; and on the generate path (here: `force`, with material available)
the returned list has at most 7 entries, every entry is longer than 5
characters after trimming, the LLM is invoked, and the cache is written
exactly when the result list is non-empty (and then with exactly that list). -/
theorem suggestFilter_all (items : List JsItem) :
    (items.filterMap (fun it =>
      match it with
      | .str s => if 5 < (trimChars s.data).length then some s else none
      | .nonStr => none)).all (fun q => decide (5 < (trimChars q.data).length)) = true := by
  induction items with
  | nil => rfl
  | cons it rest ih =>
    cases it with
    | str s =>
      by_cases h : 5 < (trimChars s.data).length
      · simp [List.filterMap_cons, h, ih]
      · simp [List.filterMap_cons, h, ih]
    | nonStr => simp [List.filterMap_cons, ih]

theorem suggest_generate_eq (cached : List String) (s0 : String)
    (srest : List String) (parsed : ParseOut) :
    ∃ q1 : List String,
      q1.all (fun q => decide (5 < (trimChars q.data).length)) = true ∧
      generateSuggestedQuestions true cached (some (s0 :: srest)) parsed =
        ⟨if 7 < q1.length then q1.take 7 else q1, true,
         if (if 7 < q1.length then q1.take 7 else q1).isEmpty then none
         else some (if 7 < q1.length then q1.take 7 else q1)⟩ := by
  refine ⟨(match parsed with
    | ParseOut.threw => [JsItem.str fallbackSuggestion]
    | ParseOut.notArray => []
    | ParseOut.arr items => items).filterMap (fun it =>
      match it with
      | JsItem.str s => if 5 < (trimChars s.data).length then some s else none
      | JsItem.nonStr => none),
   suggestFilter_all _, ?_⟩
  rfl

theorem c8_suggest_cache_validation (c0 : String) (crest : List String)
    (mat : Option (List String)) (parsed : ParseOut) (cached : List String)
    (s0 : String) (srest : List String) :
    generateSuggestedQuestions false (c0 :: crest) mat parsed =
      ⟨c0 :: crest, false, none⟩ ∧
    (generateSuggestedQuestions true cached (some (s0 :: srest)) parsed).questions.length ≤ 7 ∧
    (generateSuggestedQuestions true cached (some (s0 :: srest)) parsed).questions.all
      (fun q => decide (5 < (trimChars q.data).length)) = true ∧
    (generateSuggestedQuestions true cached (some (s0 :: srest)) parsed).llmCalled = true ∧
    (generateSuggestedQuestions true cached (some (s0 :: srest)) parsed).cacheWrite =
      (if (generateSuggestedQuestions true cached (some (s0 :: srest)) parsed).questions.isEmpty
       then none
       else some (generateSuggestedQuestions true cached (some (s0 :: srest)) parsed).questions) := by
  obtain ⟨q1, hall, heq⟩ := suggest_generate_eq cached s0 srest parsed
  rw [heq]
  refine ⟨rfl, ?_, ?_, rfl, rfl⟩
  · by_cases h : 7 < q1.length
    · simp only [if_pos h]
      simp [List.length_take_le]
    · simp only [if_neg h]
      omega
  · by_cases h : 7 < q1.length
    · simp only [if_pos h]
      exact List.all_eq_true.mpr (fun q hq =>
        List.all_eq_true.mp hall q (List.mem_of_mem_take hq))
    · simp only [if_neg h]
      exact hall

/-- C9 (notebook store modelled from the spec): renaming or deleting the
default notebook always fails with PolicyViolation, and deleting the
currently-active non-default notebook succeeds and leaves the default
notebook active. -/
theorem c9_notebook_policy :
    (∀ (st : NotebookState) (id newName : String) (nb : Notebook),
       findNotebook st id = some nb → nb.isDefault = true →
       renameNotebook st id newName = .error .policyViolation) ∧
    (∀ (st : NotebookState) (id : String) (nb : Notebook),
       findNotebook st id = some nb → nb.isDefault = true →
       deleteNotebook st id = .error .policyViolation) ∧
    (∀ (st : NotebookState) (id : String) (nb : Notebook),
       findNotebook st id = some nb → nb.isDefault = false → st.activeId = id →
       ∃ st', deleteNotebook st id = .ok st' ∧ st'.activeId = "default") := by
  refine ⟨?_, ?_, ?_⟩
  · intro st id newName nb hfind hdef
    unfold renameNotebook
    rw [hfind]
    simp [hdef]
  · intro st id nb hfind hdef
    unfold deleteNotebook
    rw [hfind]
    simp [hdef]
  · intro st id nb hfind hdef hact
    refine ⟨{ notebooks := st.notebooks.filter (fun n => n.id != id),
              activeId := if st.activeId == id then "default" else st.activeId }, ?_, ?_⟩
    · unfold deleteNotebook
      rw [hfind]
      simp [hdef]
    · simp [hact]

/-- C9 witness: the concrete two-notebook store. -/
theorem c9_notebook_policy_witness :
    renameNotebook nbState "default" "X" = .error .policyViolation ∧
    deleteNotebook nbState "default" = .error .policyViolation ∧
    ∃ st', deleteNotebook nbState "nb1" = .ok st' ∧ st'.activeId = "default" :=
  ⟨c9_notebook_policy.1 nbState "default" "X" nbDefault (by decide) rfl,
   c9_notebook_policy.2.1 nbState "default" nbDefault (by decide) rfl,
   c9_notebook_policy.2.2 nbState "nb1" nbWork (by decide) rfl rfl⟩



/-- Escaping always yields a pattern in the literal fragment, decoding back
to the original name: the dynamically-built regex can never be invalid. -/
theorem literalOfPattern_escape (l : List Char) :
    literalOfPattern (escapeRegex l) = some l := by
  induction l with
  | nil => rfl
  | cons c t ih =>
    by_cases h : regexMeta c = true
    · simp [escapeRegex, h, literalOfPattern, ih]
    · have hc : ¬(c = '\\') := by
        intro he; subst he; simp [regexMeta] at h
      rw [escapeRegex, if_neg h, literalOfPattern.eq_def]
      simp [hc, h, ih]

/-- The source-name loop never raises: every escaped pattern is a valid
literal regex. -/
theorem citesNamedE_ok (tc : List Char) : ∀ names : List (Option String),
    ∃ b, citesNamedE tc names = .ok b := by
  intro names
  induction names with
  | nil => exact ⟨false, rfl⟩
  | cons name rest ih =>
    obtain ⟨b, hb⟩ := ih
    have hre : regexTestCI (escapeRegex (citesNamedE.jsNameStr name).data) tc =
        .ok (containsCI tc (citesNamedE.jsNameStr name).data) := by
      unfold regexTestCI
      rw [literalOfPattern_escape]
    by_cases h : (escapeRegex (citesNamedE.jsNameStr name).data).isEmpty = true
    · refine ⟨b, ?_⟩
      unfold citesNamedE
      rw [if_pos h]
      exact hb
    · unfold citesNamedE
      rw [if_neg h, hre]
      cases hc : containsCI tc (citesNamedE.jsNameStr name).data
      · exact ⟨b, hb⟩
      · exact ⟨true, rfl⟩

/-- C10: `textCitesMaterial` is total: for every text (including
null/undefined and empty) and every material (including null, material
without a sources array, and names with regex metacharacters or null names)
the body runs to completion with a boolean — the internal `try/catch` (and
hence the refusal-on-failure path) is never driven by an exception, because
the escaping step makes every dynamically-built regex a valid literal; a
material without sources yields `false` for the name check, and
metacharacters in names are matched literally, not as regex operators. -/
theorem c10_textCitesMaterial_total :
    (∀ (text : Option String) (material : Option JsMaterial),
       ∃ b : Bool, textCitesMaterialE text material = .ok b ∧
         textCitesMaterial text material = b) ∧
    textCitesMaterial none none = false ∧
    textCitesMaterial (some "") (some ⟨none⟩) = false ∧
    textCitesMaterial (some "mentions abc here") (some ⟨some [some "a.c"]⟩) = false ∧
    textCitesMaterial (some "mentions a.c here")
      (some ⟨some [some "a.c", none, some ""]⟩) = true := by
  refine ⟨?_, by decide, by decide, by decide, by decide⟩
  intro text material
  cases material with
  | none => exact ⟨_, rfl, rfl⟩
  | some m =>
    obtain ⟨srcs⟩ := m
    cases srcs with
    | none => exact ⟨_, rfl, rfl⟩
    | some names =>
      obtain ⟨b, hb⟩ := citesNamedE_ok (tcOf text) names
      refine ⟨citesVideoB (tcOf text) || citesPageB (tcOf text) || b, ?_, ?_⟩
      · show (match citesNamedE (tcOf text) names with
          | Except.ok bb =>
            Except.ok (citesVideoB (tcOf text) || citesPageB (tcOf text) || bb)
          | Except.error e => Except.error e) = _
        rw [hb]
      · show (match (match citesNamedE (tcOf text) names with
            | Except.ok bb =>
              Except.ok (citesVideoB (tcOf text) || citesPageB (tcOf text) || bb)
            | Except.error e => Except.error e : Except Unit Bool) with
          | Except.ok bb => bb
          | Except.error _ => false) = _
        rw [hb]

theorem removeAllCIFuel_nil (pat : List Char) (fuel : Nat) :
    removeAllCIFuel pat fuel [] = [] := by
  cases fuel <;> rfl

theorem matchCI_self_append (p r : List Char) : matchCI p (p ++ r) = some r := by
  induction p with
  | nil => rfl
  | cons c ps ih => simp [matchCI, eqCI, ih]

theorem containsCI_cons (pat : List Char) (c : Char) (rest : List Char) :
    containsCI (c :: rest) pat =
      ((matchCI pat (c :: rest)).isSome || containsCI rest pat) := rfl

theorem removeAllCIFuel_of_not_contains (pat : List Char) :
    ∀ (l : List Char) (fuel : Nat), containsCI l pat = false →
      removeAllCIFuel pat fuel l = l := by
  intro l
  induction l with
  | nil => intro fuel _; exact removeAllCIFuel_nil pat fuel
  | cons c t ih =>
    intro fuel h
    rw [containsCI_cons, Bool.or_eq_false_iff] at h
    have h1 : matchCI pat (c :: t) = none := by
      cases hm : matchCI pat (c :: t) with
      | none => rfl
      | some r => rw [hm] at h; simp at h
    cases fuel with
    | zero => rfl
    | succ fuel =>
      show (match matchCI pat (c :: t) with
        | some rest => removeAllCIFuel pat fuel rest
        | none => c :: removeAllCIFuel pat fuel t) = c :: t
      rw [h1]
      show c :: removeAllCIFuel pat fuel t = c :: t
      rw [ih fuel h.2]

theorem containsCI_append_clean (pH : Char) (pT : List Char) :
    ∀ (l t : List Char), l.all (fun c => !eqCI pH c) = true →
      containsCI t (pH :: pT) = false →
      containsCI (l ++ t) (pH :: pT) = false := by
  intro l
  induction l with
  | nil => intro t _ ht; simpa using ht
  | cons c l' ih =>
    intro t hall ht
    rw [List.all_cons, Bool.and_eq_true] at hall
    have heq : eqCI pH c = false := by
      have := hall.1
      rwa [Bool.not_eq_true'] at this
    rw [List.cons_append, containsCI_cons]
    have hm : matchCI (pH :: pT) (c :: (l' ++ t)) = none := by
      simp [matchCI, heq]
    rw [hm]
    simp [ih t hall.2 ht]

theorem removeAllCIFuel_append_clean (pH : Char) (pT : List Char) :
    ∀ (l t : List Char) (fuel : Nat), l.all (fun c => !eqCI pH c) = true →
      removeAllCIFuel (pH :: pT) (l.length + fuel) (l ++ t) =
        l ++ removeAllCIFuel (pH :: pT) fuel t := by
  intro l
  induction l with
  | nil => intro t fuel _; simp
  | cons c l' ih =>
    intro t fuel hall
    rw [List.all_cons, Bool.and_eq_true] at hall
    have heq : eqCI pH c = false := by
      have := hall.1
      rwa [Bool.not_eq_true'] at this
    have hlen : (c :: l').length + fuel = (l'.length + fuel) + 1 := by
      simp [Nat.succ_add]
    rw [hlen, List.cons_append]
    show (match matchCI (pH :: pT) (c :: (l' ++ t)) with
      | some r => removeAllCIFuel (pH :: pT) (l'.length + fuel) r
      | none => c :: removeAllCIFuel (pH :: pT) (l'.length + fuel) (l' ++ t)) =
      (c :: l') ++ removeAllCIFuel (pH :: pT) fuel t
    have hm : matchCI (pH :: pT) (c :: (l' ++ t)) = none := by
      simp [matchCI, heq]
    rw [hm]
    show c :: removeAllCIFuel (pH :: pT) (l'.length + fuel) (l' ++ t) = _
    rw [ih t fuel hall.2]
    rfl

theorem removeAllCI_strip (pat rest : List Char) (hne : pat ≠ [])
    (hcont : containsCI rest pat = false) :
    removeAllCI pat (pat ++ rest) = rest := by
  match pat, hne with
  | p :: ps, _ =>
    show removeAllCIFuel (p :: ps) (((p :: ps) ++ rest).length) ((p :: ps) ++ rest) = rest
    rw [List.cons_append]
    show (match matchCI (p :: ps) (p :: (ps ++ rest)) with
      | some r => removeAllCIFuel (p :: ps) ((ps ++ rest).length) r
      | none => p :: removeAllCIFuel (p :: ps) ((ps ++ rest).length) (ps ++ rest)) = rest
    rw [show matchCI (p :: ps) (p :: (ps ++ rest)) = some rest from
      matchCI_self_append (p :: ps) rest]
    exact removeAllCIFuel_of_not_contains _ rest _ hcont

theorem removeAllCI_clean_then_pat (pH : Char) (pT l : List Char)
    (hall : l.all (fun c => !eqCI pH c) = true) :
    removeAllCI (pH :: pT) (l ++ (pH :: pT)) = l := by
  show removeAllCIFuel (pH :: pT) ((l ++ (pH :: pT)).length) (l ++ (pH :: pT)) = l
  rw [List.length_append, removeAllCIFuel_append_clean pH pT l (pH :: pT) _ hall]
  have hpat : removeAllCIFuel (pH :: pT) ((pH :: pT).length) (pH :: pT) = [] := by
    show (match matchCI (pH :: pT) (pH :: pT) with
      | some r => removeAllCIFuel (pH :: pT) pT.length r
      | none => pH :: removeAllCIFuel (pH :: pT) pT.length pT) = []
    have hm : matchCI (pH :: pT) (pH :: pT) = some [] := by
      have := matchCI_self_append (pH :: pT) []
      rwa [List.append_nil] at this
    rw [hm]
    exact removeAllCIFuel_nil _ _
  rw [hpat, List.append_nil]

theorem strData_append (a b : String) : (a ++ b).data = a.data ++ b.data := rfl


theorem extractJsonChars_cleaned (cs cleaned : List Char)
    (h : trimChars (removeAllCI "```".data (removeAllCI "```json".data cs)) = cleaned) :
    extractJsonChars cs =
      (match firstIdx lbCh cleaned, lastIdx rbCh cleaned with
       | some s, some e => jsSubstring s (e + 1) cleaned
       | _, _ => cleaned) := by
  unfold extractJsonChars
  rw [h]

theorem extractJson_fenced (J : String)
    (h1 : J.data.head? = some lbCh)
    (h2 : J.data.getLast? = some rbCh)
    (h3 : J.data.all (fun c => !eqCI btCh c) = true) :
    extractJson ("```json\n" ++ J ++ "\n```") = J := by
  obtain ⟨J', hJ⟩ : ∃ J', J.data = lbCh :: J' := by
    cases hd : J.data with
    | nil => rw [hd] at h1; simp at h1
    | cons a t =>
      rw [hd] at h1
      simp at h1
      exact ⟨t, by rw [h1]⟩
  have e1 : "```json\n".data = "```json".data ++ ['\n'] := by decide
  have e2 : "\n```".data = '\n' :: "```".data := by decide
  have hdata : ("```json\n" ++ J ++ "\n```").data =
      "```json".data ++ ('\n' :: (J.data ++ ('\n' :: "```".data))) := by
    rw [strData_append, strData_append, e1, e2]
    simp
  have hfj : ("```json".data : List Char) = btCh :: "``json".data := by decide
  have c1 : containsCI ('\n' :: "```".data) (btCh :: "``json".data) = false := by decide
  have c2 : containsCI (J.data ++ ('\n' :: "```".data)) (btCh :: "``json".data) = false :=
    containsCI_append_clean btCh _ _ _ h3 c1
  have c3 : containsCI ('\n' :: (J.data ++ ('\n' :: "```".data)))
      ("```json".data) = false := by
    rw [hfj]
    have := containsCI_append_clean btCh "``json".data ['\n']
      (J.data ++ ('\n' :: "```".data)) (by decide) c2
    simpa using this
  have step1 : removeAllCI "```json".data
      ("```json".data ++ ('\n' :: (J.data ++ ('\n' :: "```".data)))) =
      '\n' :: (J.data ++ ('\n' :: "```".data)) :=
    removeAllCI_strip _ _ (by decide) c3
  have hbt : ("```".data : List Char) = btCh :: "``".data := by decide
  have hn : (!eqCI btCh '\n') = true := by decide
  have hall2 : (('\n' :: (J.data ++ ['\n'])).all (fun c => !eqCI btCh c)) = true := by
    simp [List.all_cons, List.all_append, h3, hn]
  have hassoc : '\n' :: (J.data ++ ('\n' :: "```".data)) =
      ('\n' :: (J.data ++ ['\n'])) ++ "```".data := by simp
  have step2 : removeAllCI "```".data ('\n' :: (J.data ++ ('\n' :: "```".data))) =
      '\n' :: (J.data ++ ['\n']) := by
    rw [hassoc, hbt]
    exact removeAllCI_clean_then_pat btCh _ _ hall2
  obtain ⟨R, hR⟩ : ∃ R, (lbCh :: J').reverse = rbCh :: R := by
    have hrev : (lbCh :: J').reverse.head? = some rbCh := by
      rw [List.head?_reverse, ← hJ]
      exact h2
    cases hr : (lbCh :: J').reverse with
    | nil => rw [hr] at hrev; simp at hrev
    | cons a t =>
      rw [hr] at hrev
      simp at hrev
      exact ⟨t, by rw [hrev]⟩
  have step3 : trimChars ('\n' :: (J.data ++ ['\n'])) = J.data := by
    unfold trimChars
    rw [hJ]
    have d1 : List.dropWhile isWSCh ('\n' :: ((lbCh :: J') ++ ['\n'])) =
        (lbCh :: J') ++ ['\n'] := by
      rw [List.dropWhile_cons]
      simp [List.cons_append, List.dropWhile_cons,
        show isWSCh '\n' = true by decide, show isWSCh lbCh = false by decide]
    have hrevlist : ((lbCh :: J') ++ ['\n']).reverse = '\n' :: (rbCh :: R) := by
      rw [List.reverse_append, hR]
      rfl
    have d2 : List.dropWhile isWSCh ('\n' :: (rbCh :: R)) = rbCh :: R := by
      simp [List.dropWhile_cons, show isWSCh '\n' = true by decide,
        show isWSCh rbCh = false by decide]
    rw [d1, hrevlist, d2, ← hR, List.reverse_reverse]
  have hfirst : firstIdx lbCh (lbCh :: J') = some 0 := by
    simp [firstIdx]
  have hlast : lastIdx rbCh (lbCh :: J') = some ((lbCh :: J').length - 1) := by
    unfold lastIdx
    rw [hR]
    simp [firstIdx]
  have hsub : jsSubstring 0 (((lbCh :: J').length - 1) + 1) (lbCh :: J') =
      lbCh :: J' := by
    have hlen : ((lbCh :: J').length - 1) + 1 = (lbCh :: J').length := by simp
    rw [hlen]
    unfold jsSubstring
    simp
  have hclean : trimChars (removeAllCI "```".data (removeAllCI "```json".data
      (("```json\n" ++ J ++ "\n```").data))) = lbCh :: J' := by
    rw [hdata, step1, step2, step3, hJ]
  have hform := extractJsonChars_cleaned (("```json\n" ++ J ++ "\n```").data)
    (lbCh :: J') hclean
  show String.mk (extractJsonChars (("```json\n" ++ J ++ "\n```").data)) = J
  rw [hform, hfirst, hlast]
  show String.mk (jsSubstring 0 (((lbCh :: J').length - 1) + 1) (lbCh :: J')) = J
  rw [hsub, ← hJ]

/-- C7: summary JSON extraction and retry policy: (1) raw text wrapping a
JSON object in ```json fences extracts to exactly that payload (for any
payload starting with a brace, ending with a brace, containing no backtick);
(2) when the first parse succeeds the LLM is called exactly once and the
parsed value is returned; (3) when the first parse fails the LLM is called
exactly once more (two calls total), and if the retry also fails to parse,
the hard-coded error-shaped summary with the raw text attached is returned
instead of an exception. -/
theorem c7_summary_json :
    (∀ J : String, J.data.head? = some lbCh → J.data.getLast? = some rbCh →
       J.data.all (fun c => !eqCI btCh c) = true →
       extractJson ("```json\n" ++ J ++ "\n```") = J) ∧
    (∀ (α : Type) (parse : String → Option α) (raw : String)
       (rg : Unit → String) (v : α),
       parse (extractJson raw) = some v →
       generateSummaryPost parse raw rg = (.parsedOk v, 1)) ∧
    (∀ (α : Type) (parse : String → Option α) (raw : String) (rg : Unit → String),
       parse (extractJson raw) = none →
       (generateSummaryPost parse raw rg).2 = 2 ∧
       (parse (extractJson (rg ())) = none →
         (generateSummaryPost parse raw rg).1 =
           .errorShaped summaryErrOverview summaryErrConcepts summaryErrTips raw)) := by
  refine ⟨fun J a b c => extractJson_fenced J a b c, ?_, ?_⟩
  · intro α parse raw rg v h
    unfold generateSummaryPost
    rw [h]
  · intro α parse raw rg h
    unfold generateSummaryPost
    rw [h]
    constructor
    · cases hr : parse (extractJson (rg ())) <;> simp [hr]
    · intro h2
      show (match parse (extractJson (rg ())) with
        | some v => (SummaryParsed.parsedOk v, (2 : Nat))
        | none => (SummaryParsed.errorShaped summaryErrOverview summaryErrConcepts
            summaryErrTips raw, 2)).1 =
        SummaryParsed.errorShaped summaryErrOverview summaryErrConcepts
          summaryErrTips raw
      rw [h2]

/-- C7 witness: concrete fenced payload, a successful single-call parse, and
a double-failure returning the error-shaped summary. -/
theorem c7_summary_json_witness :
    extractJson ("```json\n" ++ "\x7b\"a\": 1\x7d" ++ "\n```") = "\x7b\"a\": 1\x7d" ∧
    generateSummaryPost parseOnlyJ0 ("```json\n" ++ "\x7b\"a\": 1\x7d" ++ "\n```")
      (fun _ => "") = (.parsedOk 7, 1) ∧
    (generateSummaryPost parseOnlyJ0 "no json here" (fun _ => "still none")).2 = 2 ∧
    (generateSummaryPost parseOnlyJ0 "no json here" (fun _ => "still none")).1 =
      .errorShaped summaryErrOverview summaryErrConcepts summaryErrTips
        "no json here" := by
  have h1 := c7_summary_json.1 "\x7b\"a\": 1\x7d" (by decide) (by decide) (by decide)
  refine ⟨h1, ?_, ?_, ?_⟩
  · exact c7_summary_json.2.1 Nat parseOnlyJ0 _ (fun _ => "") 7
      (by rw [h1]; decide)
  · exact (c7_summary_json.2.2 Nat parseOnlyJ0 "no json here"
      (fun _ => "still none") (by decide)).1
  · exact (c7_summary_json.2.2 Nat parseOnlyJ0 "no json here"
      (fun _ => "still none") (by decide)).2 (by decide)

end Studionyx
